import Mathlib

/-!
Shallow embedding of `allowlist_enforcer.py` (the PyChrono 9.0.1 code gate):
the policy model (`Allowlist`), alias collection (`_collect_aliases`),
attribute-chain flattening (`_attr_chain`), fully-qualified-name resolution
(`_fqname_from_chain`), the legacy rewriter (`LegacyRewriter`), the validator
(`PyChronoValidator.visit_Call`) and the driver (`rewrite_and_validate`,
`validate_code`).  `ast.parse` and the serializers (`astor.to_source` /
`ast.unparse`) are external to the repository and are modelled as an
environment (`SerEnv`); the regex fallback of `rewrite_and_validate` is
implemented directly (`regexFallback`).
-/

/-- Fragment of the Python AST that the enforcer inspects.  A `call` carries
positional arguments and keyword arguments; a keyword argument with `none`
as its name is a `**kwargs` splat (`ast.keyword` with `arg is None`).
`const` stands for any leaf expression that is neither a `Name` nor an
`Attribute` (constants, literals, ...). -/
inductive PyExpr where
  | name : String → PyExpr
  | const : String → PyExpr
  | attribute : PyExpr → String → PyExpr
  | call : PyExpr → List PyExpr → List (Option String × PyExpr) → PyExpr

/-- Statements of the embedded module: `ast.Import` (list of `(name, asname)`
aliases), `ast.ImportFrom` (module may be `none` for relative imports),
`ast.Assign` (list of targets plus a value) and bare expression statements. -/
inductive PyStmt where
  | imp : List (String × Option String) → PyStmt
  | impFrom : Option String → List (String × Option String) → PyStmt
  | assign : List PyExpr → PyExpr → PyStmt
  | exprStmt : PyExpr → PyStmt

/-- A parsed module (`ast.Module`). -/
structure PyModule where
  body : List PyStmt

/-- Association-list lookup, modelling Python `dict.get` (dict keys are
unique, so first-match lookup agrees with the dict). -/
def lookupAssoc {α : Type} : List (String × α) → String → Option α
  | [], _ => none
  | (a, b) :: rest, k => if k = a then some b else lookupAssoc rest k

/-- One entry of `allowlist.json`'s `overloads` lists: a parameter-name list
and a default count (`int(o.get("defaults", 0))`, hence `Int`). -/
structure Overload where
  args : List String
  defaults : Int

/-- The `Allowlist` class: `modules` maps a module path to its permitted
class names (a Python `set`; only membership is used), `overloads` maps a
fully-qualified class name to its declared overloads. -/
structure Allowlist where
  modules : List (String × List String)
  overloads : List (String × List Overload)

/-- Legacy rename map (`classes` or `attributes` of `legacy_map.json`). -/
abbrev RenMap := List (String × String)

/-- Alias map built by `_collect_aliases`: local identifier → module path. -/
abbrev AliasMap := List (String × String)

/-- Walk the reversed character list of a string looking for the first `'.'`
(i.e. the last `'.'` of the string); returns the (still reversed) module
part and the (already restored) class part. -/
def rsplitAux : List Char → List Char → Option (List Char × List Char)
  | _, [] => none
  | acc, c :: rest => if c = '.' then some (rest, acc) else rsplitAux (c :: acc) rest

/-- Python `fqname.rpartition(".")` restricted to the two components the code
uses: `(mod, cls)` split at the last dot, or `("", fqname)` when there is no
dot. -/
def rpartitionDot (s : String) : String × String :=
  match rsplitAux [] s.data.reverse with
  | none => ("", s)
  | some (revMod, cls) => (String.mk revMod.reverse, String.mk cls)

/-- Python `fq.count(".")`. -/
def countDots (s : String) : Nat := (s.data.filter (fun c => c = '.')).length

/-- `Allowlist.is_allowed_class`: split the fully-qualified name at its last
dot; the class is allowed when the class part is nonempty, the module part
is a key of `modules` and the class part belongs to that module's set. -/
def isAllowedClass (allow : Allowlist) (fq : String) : Bool :=
  let p := rpartitionDot fq
  decide (p.2 ≠ "") &&
    (match lookupAssoc allow.modules p.1 with
     | some cs => cs.contains p.2
     | none => false)

/-- `Allowlist.ctor_windows`: each overload with `n` parameters and `d`
defaults yields the window `(n - d floored at 0, n)`. -/
def ctorWindows (allow : Allowlist) (fq : String) : List (Int × Int) :=
  ((lookupAssoc allow.overloads fq).getD []).map (fun o =>
    let n : Int := o.args.length
    let mn : Int := n - o.defaults
    (if mn < 0 then 0 else mn, n))

/-- Modelled from the spec, for comparison with `ctorWindows`: the window of
one declared signature, `minArgs = paramCount - defaultCount` floored at 0,
`maxArgs = paramCount`. -/
def specArityWindow (o : Overload) : Int × Int :=
  (max ((o.args.length : Int) - o.defaults) 0, (o.args.length : Int))

/-- The `_DENY_ATTR_WITH_HINT` table (name-only attribute denylist). -/
def denyAttrHint (attr : String) : Option String :=
  if attr = "AddTypicalCamera" then
    some "Removed in 9.x. Use vis.AddCamera(pos, target) on ChVisualSystemIrrlicht."
  else if attr = "SetYoungModulus" then
    some "Not available on ChContactMaterialNSC. Use ChContactMaterialSMC.SetYoungModulus(...) or remove for NSC."
  else none

/-- Message appended for a denied attribute. -/
def deniedMsg (attr hint : String) : String :=
  "Use of removed/denied attribute '" ++ attr ++ "'. Hint: " ++ hint

/-- Message appended for a constructor that is not in the allowlist. -/
def ctorMsg (fq : String) : String :=
  "Constructor not allowed: '" ++ fq ++ "'. Not in allowlist."

/-- Python `repr` of a list of integer pairs, as interpolated by the arity
mismatch f-string. -/
def winsRepr (wins : List (Int × Int)) : String :=
  "[" ++ String.intercalate ", "
    (wins.map (fun w => "(" ++ toString w.1 ++ ", " ++ toString w.2 ++ ")")) ++ "]"

/-- Message appended for an arity mismatch. -/
def arityMsg (fq : String) (argc : Nat) (wins : List (Int × Int)) : String :=
  "Constructor mismatch for " ++ fq ++ " with " ++ toString argc ++
    " args. Allowed arg windows: " ++ winsRepr wins

/-- `_attr_chain`: flatten `a.b.c` into `["a", "b", "c"]`; if the innermost
base of the chain is not a plain identifier, return `[]`. -/
def attrChain : PyExpr → List String
  | .name id => [id]
  | .attribute v a =>
    match attrChain v with
    | [] => []
    | xs => xs ++ [a]
  | _ => []

/-- The chain `visit_Call` computes: `_attr_chain(node.func)` when the
callee is an `Attribute` node, `[]` otherwise. -/
def funcChain : PyExpr → List String
  | .attribute v a => attrChain (.attribute v a)
  | _ => []

/-- Python `".".join`. -/
def dotJoin : List String → String
  | [] => ""
  | [x] => x
  | x :: rest => x ++ "." ++ dotJoin rest

/-- `_fqname_from_chain`: look the chain's first identifier up in the alias
map (`_guess_module_from_alias`); a missing or falsy module fails; a
one-element chain resolves to the module itself, otherwise the remaining
identifiers are dot-joined onto the module path. -/
def fqnameFromChain (chain : List String) (am : AliasMap) : Option String :=
  match chain with
  | [] => none
  | base :: rest =>
    match lookupAssoc am base with
    | none => none
    | some mod =>
      if mod = "" then none
      else if rest = [] then some mod
      else some (mod ++ "." ++ dotJoin rest)

/-- The call's supplied argument count: positional arguments plus keyword
arguments whose name is not `None`. -/
def suppliedArgc (args : List PyExpr) (kws : List (Option String × PyExpr)) : Nat :=
  args.length + (kws.filter (fun k => k.1.isSome)).length

/-- Errors the denied-attribute table contributes for an attribute name. -/
def deniedErrors (attr : String) : List String :=
  match denyAttrHint attr with
  | some h => [deniedMsg attr h]
  | none => []

/-- Step (1) of `visit_Call`: the name-only denylist check, applied only
when the callee is an `Attribute` node. -/
def funcDenied : PyExpr → List String
  | .attribute _ a => deniedErrors a
  | _ => []

/-- The overload-window check of `visit_Call`: skipped when no windows are
declared, otherwise the supplied count must fall in at least one window. -/
def arityErrors (allow : Allowlist) (fq : String) (args : List PyExpr)
    (kws : List (Option String × PyExpr)) : List String :=
  let wins := ctorWindows allow fq
  if wins = [] then []
  else
    let argc := suppliedArgc args kws
    if wins.any (fun w => decide (w.1 ≤ (argc : Int) ∧ (argc : Int) ≤ w.2)) then []
    else [arityMsg fq argc wins]

/-- Step (2) of `visit_Call`: recover a fully-qualified name from the alias
map and the attribute chain; names with at least two dots are treated as
class constructors and checked against the allowlist and, if present, the
overload windows. -/
def ctorErrors (allow : Allowlist) (am : AliasMap) (f : PyExpr)
    (args : List PyExpr) (kws : List (Option String × PyExpr)) : List String :=
  match funcChain f with
  | [] => []
  | c :: cs =>
    match fqnameFromChain (c :: cs) am with
    | none => []
    | some fq =>
      if fq ≠ "" ∧ countDots fq ≥ 2 then
        if isAllowedClass allow fq = false then [ctorMsg fq]
        else arityErrors allow fq args kws
      else []

/-- Everything `visit_Call` appends for one call node, in order. -/
def callNodeErrors (allow : Allowlist) (am : AliasMap) (f : PyExpr)
    (args : List PyExpr) (kws : List (Option String × PyExpr)) : List String :=
  funcDenied f ++ ctorErrors allow am f args kws

mutual

/-- Errors accumulated by `PyChronoValidator` while traversing one
expression: `visit_Call` fires on every call node, then `generic_visit`
recurses into the callee, the positional arguments and the keyword
arguments, in AST field order. -/
def exprErrors (allow : Allowlist) (am : AliasMap) : PyExpr → List String
  | .name _ => []
  | .const _ => []
  | .attribute v _ => exprErrors allow am v
  | .call f args kws =>
    callNodeErrors allow am f args kws ++ exprErrors allow am f
      ++ exprListErrors allow am args ++ kwListErrors allow am kws

/-- Traversal of a list of expressions, in order. -/
def exprListErrors (allow : Allowlist) (am : AliasMap) : List PyExpr → List String
  | [] => []
  | e :: rest => exprErrors allow am e ++ exprListErrors allow am rest

/-- Traversal of the keyword arguments (only their value subexpressions). -/
def kwListErrors (allow : Allowlist) (am : AliasMap) :
    List (Option String × PyExpr) → List String
  | [] => []
  | k :: rest => exprErrors allow am k.2 ++ kwListErrors allow am rest

end

/-- Errors contributed by one statement: the validator defines no visitor
for import nodes, so they contribute nothing; assignments are traversed
targets first, then value. -/
def stmtErrors (allow : Allowlist) (am : AliasMap) : PyStmt → List String
  | .imp _ => []
  | .impFrom _ _ => []
  | .assign ts v => exprListErrors allow am ts ++ exprErrors allow am v
  | .exprStmt e => exprErrors allow am e

/-- Errors of a whole statement list, in traversal order. -/
def moduleErrors (allow : Allowlist) (am : AliasMap) : List PyStmt → List String
  | [] => []
  | s :: rest => stmtErrors allow am s ++ moduleErrors allow am rest

/-- Python dict assignment `m[k] = v`: overwrite in place, else append. -/
def dinsert : List (String × String) → String → String → List (String × String)
  | [], k, v => [(k, v)]
  | (a, b) :: rest, k, v =>
    if a = k then (a, v) :: rest else (a, b) :: dinsert rest k v

/-- One statement's contribution to the alias map (`_collect_aliases._A`):
`import pychrono [as X]` binds the alias to `pychrono.core`; a `from
pychrono` import of core|vehicle|irrlicht|fea [as X] binds to that submodule; `from
pychrono.<sub> import name [as X]` binds the local name to the parent
module; everything else leaves the map unchanged. -/
def aliasStep (m : AliasMap) : PyStmt → AliasMap
  | .imp names =>
    names.foldl (fun acc p =>
      if p.1 = "pychrono" then dinsert acc (p.2.getD "pychrono") "pychrono.core"
      else acc) m
  | .impFrom mo names =>
    match mo with
    | some "pychrono" =>
      names.foldl (fun acc p =>
        if p.1 = "core" ∨ p.1 = "vehicle" ∨ p.1 = "irrlicht" ∨ p.1 = "fea" then
          dinsert acc (p.2.getD p.1) ("pychrono." ++ p.1)
        else acc) m
    | some mod =>
      if mod = "pychrono.core" ∨ mod = "pychrono.vehicle" ∨
         mod = "pychrono.irrlicht" ∨ mod = "pychrono.fea" then
        names.foldl (fun acc p => dinsert acc (p.2.getD p.1) mod) m
      else m
    | none => m
  | .assign _ _ => m
  | .exprStmt _ => m

/-- `_collect_aliases`: scan the statements, then add the soft default
`chrono → pychrono.core` unless the script bound `chrono` itself. -/
def collectAliases (body : List PyStmt) : AliasMap :=
  let m := body.foldl aliasStep []
  if (lookupAssoc m "chrono").isSome then m else dinsert m "chrono" "pychrono.core"

/-- The validation phase of `rewrite_and_validate` on an already parsed
tree: collect aliases, then run the validator over the statements. -/
def validateTree (allow : Allowlist) (m : PyModule) : List String :=
  moduleErrors allow (collectAliases m.body) m.body

mutual

/-- `LegacyRewriter` on one expression, returning the transformed node and
the `applied` records it appends, in visit order.  `visit_Name` replaces a
bare identifier found in the class-rename map; `visit_Attribute` first
transforms its child (`generic_visit`), then replaces the attribute name if
it is in the attribute-rename map.  An identity entry (`new == old`) is
neither recorded nor applied. -/
def rewriteExpr (cr ar : RenMap) : PyExpr → PyExpr × List String
  | .name id =>
    (match lookupAssoc cr id with
     | some new =>
       if new ≠ id then (.name new, ["class: " ++ id ++ " -> " ++ new])
       else (.name id, [])
     | none => (.name id, []))
  | .const s => (.const s, [])
  | .attribute v a =>
    let p := rewriteExpr cr ar v
    (match lookupAssoc ar a with
     | some new =>
       if new ≠ a then (.attribute p.1 new, p.2 ++ ["attribute: " ++ a ++ " -> " ++ new])
       else (.attribute p.1 a, p.2)
     | none => (.attribute p.1 a, p.2))
  | .call f args kws =>
    let pf := rewriteExpr cr ar f
    let pa := rewriteExprList cr ar args
    let pk := rewriteKwList cr ar kws
    (.call pf.1 pa.1 pk.1, pf.2 ++ pa.2 ++ pk.2)

/-- Rewrite a list of expressions in order. -/
def rewriteExprList (cr ar : RenMap) : List PyExpr → List PyExpr × List String
  | [] => ([], [])
  | e :: rest =>
    let p := rewriteExpr cr ar e
    let q := rewriteExprList cr ar rest
    (p.1 :: q.1, p.2 ++ q.2)

/-- Rewrite the keyword arguments (only their value subexpressions; the
keyword names are raw strings, not `Name` nodes). -/
def rewriteKwList (cr ar : RenMap) :
    List (Option String × PyExpr) → List (Option String × PyExpr) × List String
  | [] => ([], [])
  | k :: rest =>
    let p := rewriteExpr cr ar k.2
    let q := rewriteKwList cr ar rest
    ((k.1, p.1) :: q.1, p.2 ++ q.2)

end

/-- `LegacyRewriter` on one statement: import aliases hold raw strings, not
`Name` nodes, so import statements are untouched. -/
def rewriteStmt (cr ar : RenMap) : PyStmt → PyStmt × List String
  | .imp ns => (.imp ns, [])
  | .impFrom mo ns => (.impFrom mo ns, [])
  | .assign ts v =>
    let pt := rewriteExprList cr ar ts
    let pv := rewriteExpr cr ar v
    (.assign pt.1 pv.1, pt.2 ++ pv.2)
  | .exprStmt e =>
    let p := rewriteExpr cr ar e
    (.exprStmt p.1, p.2)

/-- `LegacyRewriter` over a statement list. -/
def rewriteStmts (cr ar : RenMap) : List PyStmt → List PyStmt × List String
  | [] => ([], [])
  | s :: rest =>
    let p := rewriteStmt cr ar s
    let q := rewriteStmts cr ar rest
    (p.1 :: q.1, p.2 ++ q.2)

/-- `LegacyRewriter.visit` on the whole module, with its `applied` list. -/
def rewriteModule (cr ar : RenMap) (m : PyModule) : PyModule × List String :=
  let p := rewriteStmts cr ar m.body
  (⟨p.1⟩, p.2)

/-- A `SyntaxError` raised by `ast.parse`: its message and line number. -/
structure ParseErr where
  msg : String
  lineno : Int

/-- The parts of the pipeline that live outside this repository: CPython's
`ast.parse`, and the serializer (`astor.to_source`, falling back to
`ast.unparse`; `none` means both raised, sending `rewrite_and_validate`
into its regex fallback). -/
structure SerEnv where
  parse : String → Except ParseErr PyModule
  unparse : PyModule → Option String

/-- Message returned when the input source fails to parse. -/
def syntaxErrorMsg (e : ParseErr) : String :=
  "SyntaxError: " ++ e.msg ++ " at line " ++ toString e.lineno

/-- Message returned when the rewritten source fails to re-parse. -/
def syntaxErrorAfterMsg (e : ParseErr) : String :=
  "SyntaxError after rewrite: " ++ e.msg ++ " at line " ++ toString e.lineno

/-- Word characters for the regex `\b` boundary (`[A-Za-z0-9_]`). -/
def isWordChar (c : Char) : Bool := c.isAlpha || c.isDigit || c = '_'

/-- A `\b` boundary holds between two (optional) characters when exactly
one side is a word character; a missing side counts as non-word. -/
def isBoundary (left rgt : Option Char) : Bool :=
  (match left with | some c => isWordChar c | none => false) !=
  (match rgt with | some c => isWordChar c | none => false)

/-- `re.sub(rf"\b{re.escape(old)}\b", new, s)` on character lists: scan left
to right, replacing non-overlapping boundary-delimited occurrences of `old`;
boundaries are judged on the original text and scanning resumes after the
matched text. -/
def subWordAux (old new : List Char) (prev : Option Char) (s : List Char) : List Char :=
  match s with
  | [] => []
  | c :: rest =>
    if h : old ≠ [] ∧ old.isPrefixOf (c :: rest) ∧
        isBoundary prev (some c) = true ∧
        isBoundary old.getLast? ((c :: rest).drop old.length).head? = true then
      new ++ subWordAux old new old.getLast? ((c :: rest).drop old.length)
    else
      c :: subWordAux old new (some c) rest
termination_by s.length
decreasing_by
  · simp only [List.length_drop, List.length_cons]
    have : 0 < old.length := List.length_pos.mpr h.1
    omega
  · simp

/-- `re.sub(rf"\.{re.escape(old)}\b", "." + new, s)`: a literal dot, the old
attribute name, and a trailing `\b` boundary. -/
def subAttrAux (old new : List Char) (s : List Char) : List Char :=
  match s with
  | [] => []
  | c :: rest =>
    if c = '.' ∧ old.isPrefixOf rest ∧
        isBoundary old.getLast? (rest.drop old.length).head? = true then
      '.' :: (new ++ subAttrAux old new (rest.drop old.length))
    else
      c :: subAttrAux old new rest
termination_by s.length
decreasing_by
  · simp only [List.length_drop, List.length_cons]
    omega
  · simp

/-- The last-resort textual rewrite of `rewrite_and_validate`: word-boundary
substitution for every class rename, then dot-prefixed substitution for
every attribute rename, in map order, starting from the original source. -/
def regexFallback (cr ar : RenMap) (source : String) : String :=
  let s1 := cr.foldl (fun acc p => String.mk (subWordAux p.1.data p.2.data none acc.data)) source
  ar.foldl (fun acc p => String.mk (subAttrAux p.1.data p.2.data acc.data)) s1

/-- The rewritten text produced from a parsed tree: the original source when
no rename was applied, otherwise the serializer's output, falling back to
the textual substitution when both serializers fail. -/
def rewrittenOf (env : SerEnv) (cr ar : RenMap) (source : String) (tree : PyModule) : String :=
  let p := rewriteModule cr ar tree
  if p.2 = [] then source
  else
    match env.unparse p.1 with
    | some u => u
    | none => regexFallback cr ar source

/-- `rewrite_and_validate`: parse (a failure short-circuits with a single
`SyntaxError` violation, the unchanged source and no renames), rewrite,
re-parse the rewritten text (a failure here is reported as occurring after
rewrite, alongside the applied renames), then collect aliases and validate.
Returns `(rewritten_source, errors, applied_renames)`. -/
def rewriteAndValidate (env : SerEnv) (allow : Allowlist) (cr ar : RenMap)
    (source : String) : String × List String × List String :=
  match env.parse source with
  | .error e => (source, [syntaxErrorMsg e], [])
  | .ok tree =>
    let applied := (rewriteModule cr ar tree).2
    let rewritten := rewrittenOf env cr ar source tree
    match env.parse rewritten with
    | .error e => (rewritten, [syntaxErrorAfterMsg e], applied)
    | .ok tree2 => (rewritten, validateTree allow tree2, applied)

/-- `validate_code`: `rewrite_and_validate` with no legacy map (the built-in
rename maps are empty), keeping only the errors. -/
def validateCode (env : SerEnv) (allow : Allowlist) (source : String) : List String :=
  (rewriteAndValidate env allow [] [] source).2.1

/-- The innermost base of an attribute chain (`cur` after the while loop of
`_attr_chain`). -/
def chainRoot : PyExpr → PyExpr
  | .attribute v _ => chainRoot v
  | e => e

/-- Whether an expression is a plain identifier (`ast.Name`). -/
def isNameRoot : PyExpr → Bool
  | .name _ => true
  | _ => false

/-- A rename map in which no rename target is also a rename source. -/
def NoChain (m : RenMap) : Prop :=
  ∀ k v, lookupAssoc m k = some v → lookupAssoc m v = none

/-- Policy of the ambiguity scenario: two modules both list `Ambiguous`. -/
def ambPolicy : Allowlist :=
  ⟨[("pychrono.core", ["Ambiguous"]), ("pychrono.vehicle", ["Ambiguous"])], []⟩

/-- Source text of the ambiguity scenario. -/
def ambSrc : String := "import pychrono\npychrono.Ambiguous(1)"

/-- Parse of `ambSrc`: a whole-module import and a bare call of `Ambiguous`
directly off the library's top-level namespace. -/
def ambModule : PyModule :=
  ⟨[.imp [("pychrono", none)],
    .exprStmt (.call (.attribute (.name "pychrono") "Ambiguous") [.const "1"] [])]⟩

/-- Environment binding `ambSrc` to its parse. -/
def ambEnv : SerEnv :=
  ⟨fun s => if s = ambSrc then .ok ambModule else .error ⟨"invalid syntax", 1⟩,
   fun _ => none⟩

/-- Source text of the selective-import scenario. -/
def selSrc : String := "from pychrono import core"

/-- Parse of `selSrc`. -/
def selModule : PyModule := ⟨[.impFrom (some "pychrono") [("core", none)]]⟩

/-- Environment binding `selSrc` to its parse. -/
def selEnv : SerEnv :=
  ⟨fun s => if s = selSrc then .ok selModule else .error ⟨"invalid syntax", 1⟩,
   fun _ => none⟩

/-- Policy of the full-submodule-path scenario: `pychrono.core` permits
`Widget`, no overloads. -/
def fullPathPolicy : Allowlist := ⟨[("pychrono.core", ["Widget"])], []⟩

/-- Source text of the full-submodule-path scenario. -/
def fullPathSrc : String := "import pychrono\nx = pychrono.core.Widget(1,2)\nx.Foo()"

/-- Parse of `fullPathSrc`. -/
def fullPathModule : PyModule :=
  ⟨[.imp [("pychrono", none)],
    .assign [.name "x"]
      (.call (.attribute (.attribute (.name "pychrono") "core") "Widget")
        [.const "1", .const "2"] []),
    .exprStmt (.call (.attribute (.name "x") "Foo") [] [])]⟩

/-- Environment binding `fullPathSrc` to its parse. -/
def fullPathEnv : SerEnv :=
  ⟨fun s => if s = fullPathSrc then .ok fullPathModule else .error ⟨"invalid syntax", 1⟩,
   fun _ => none⟩

/-- Policy of the arity scenario: `Widget` permitted in `pychrono.core` with
one overload of three parameters and one default. -/
def arityPolicy : Allowlist :=
  ⟨[("pychrono.core", ["Widget"])],
   [("pychrono.core.Widget", [⟨["a", "b", "c"], 1⟩])]⟩

/-- Alias map of the arity scenario (`import pychrono as chrono`). -/
def arityAm : AliasMap := [("chrono", "pychrono.core")]

/-- Environment whose parser accepts exactly the empty program `"pass"`. -/
def idleEnv : SerEnv :=
  ⟨fun s => if s = "pass" then .ok ⟨[]⟩ else .error ⟨"invalid syntax", 1⟩,
   fun _ => none⟩

/-- Environment whose parser rejects everything. -/
def failEnv : SerEnv := ⟨fun _ => .error ⟨"invalid syntax", 3⟩, fun _ => none⟩

/-- A module consisting of the single bare identifier `Old`. -/
def oldModule : PyModule := ⟨[.exprStmt (.name "Old")]⟩

/-- The same module after the rename `Old -> New`. -/
def newModule : PyModule := ⟨[.exprStmt (.name "New")]⟩

/-- Rename map sending `Old` to `New`. -/
def oldNewRen : RenMap := [("Old", "New")]

/-- Environment in which `"p"` parses to `oldModule`, everything serializes
to `"q"` and `"q"` does not parse: exercises the post-rewrite parse failure. -/
def rwErrEnv : SerEnv :=
  ⟨fun s => if s = "p" then .ok oldModule else .error ⟨"bad token", 7⟩,
   fun _ => some "q"⟩

/-- Environment in which `"s0"` parses to `oldModule`, a rewritten module
serializes to a fresh name that parses back to it: exercises idempotence of
the rewrite. -/
def idemEnv : SerEnv :=
  ⟨fun s =>
     if s = "s0" then .ok oldModule
     else if s = "vNew" then .ok newModule
     else .error ⟨"invalid syntax", 1⟩,
   fun m => match m.body with
     | [PyStmt.exprStmt (PyExpr.name s)] => some ("v" ++ s)
     | _ => none⟩

/-- Splitting a reversed character list at its first dot, when the prefix
holds no dot: the accumulator collects the prefix back in order. -/
theorem rsplitAux_append (r : List Char) :
    ∀ (l acc : List Char), (∀ ch ∈ l, ch ≠ '.') →
      rsplitAux acc (l ++ '.' :: r) = some (r, l.reverse ++ acc) := by
  intro l
  induction l with
  | nil => intro acc _; simp [rsplitAux]
  | cons c l ih =>
    intro acc h
    have hc : c ≠ '.' := h c (List.mem_cons_self c l)
    calc rsplitAux acc ((c :: l) ++ '.' :: r)
        = rsplitAux (c :: acc) (l ++ '.' :: r) := by simp [rsplitAux, hc]
      _ = some (r, l.reverse ++ (c :: acc)) :=
          ih (c :: acc) (fun ch hm => h ch (List.mem_cons_of_mem c hm))
      _ = some (r, (c :: l).reverse ++ acc) := by simp

/-- `rpartitionDot` splits a dot-joined name at its last dot when the class
part is dot-free. -/
theorem rpartitionDot_append (m c : String)
    (hnd : ∀ ch ∈ c.data, ch ≠ '.') :
    rpartitionDot (m ++ "." ++ c) = (m, c) := by
  have hdata : (m ++ "." ++ c).data = m.data ++ '.' :: c.data := by
    simp [String.data_append]
  have hrev : (m ++ "." ++ c).data.reverse = c.data.reverse ++ '.' :: m.data.reverse := by
    rw [hdata]; simp
  unfold rpartitionDot
  rw [hrev, rsplitAux_append m.data.reverse c.data.reverse []
      (fun ch hm => hnd ch (List.mem_reverse.mp hm))]
  simp

/-- Dot count of a dot-joined name whose last component is dot-free. -/
theorem countDots_append (m c : String) (hnd : ∀ ch ∈ c.data, ch ≠ '.') :
    countDots (m ++ "." ++ c) = countDots m + 1 := by
  have hdata : (m ++ "." ++ c).data = m.data ++ '.' :: c.data := by
    simp [String.data_append]
  have hc : c.data.filter (fun ch => decide (ch = '.')) = [] := by
    rw [List.filter_eq_nil_iff]
    intro ch hm
    simpa using hnd ch hm
  unfold countDots
  rw [hdata, List.filter_append, List.filter_cons]
  simp [hc]

/-- A dot-joined name is nonempty. -/
theorem dotName_ne_empty (m c : String) : m ++ "." ++ c ≠ "" := by
  intro h
  have hd : (m ++ "." ++ c).data = m.data ++ '.' :: c.data := by
    simp [String.data_append]
  rw [h] at hd
  have hnil : ([] : List Char) = m.data ++ '.' :: c.data := hd
  exact absurd hnil.symm (by simp)

/-- Flooring at zero, written as the code writes it and as the spec states
it. -/
theorem ite_neg_eq_max (x : Int) : (if x < 0 then 0 else x) = max x 0 := by
  rcases lt_or_le x 0 with h | h
  · rw [if_pos h, max_eq_right h.le]
  · rw [if_neg (not_lt.mpr h), max_eq_left h]

/-- A chain whose innermost base is not a plain identifier flattens to the
empty list. -/
theorem attrChain_eq_nil :
    ∀ f : PyExpr, isNameRoot (chainRoot f) = false → attrChain f = []
  | .name _, h => by simp [chainRoot, isNameRoot] at h
  | .const _, _ => rfl
  | .attribute v a, h => by
    have hv : attrChain v = [] :=
      attrChain_eq_nil v (by simpa [chainRoot] using h)
    simp [attrChain, hv]
  | .call _ _ _, _ => rfl

/-- C9: a call whose callee is a bare identifier (`ast.Name`) contributes no
violation of its own — the denied-attribute check requires an `Attribute`
callee and the constructor chain is empty for a `Name` callee — so the
traversal of such a call only collects errors from its argument
subexpressions. -/
theorem c9_bare_name_calls_unchecked (allow : Allowlist) (am : AliasMap)
    (x : String) (args : List PyExpr) (kws : List (Option String × PyExpr)) :
    callNodeErrors allow am (.name x) args kws = [] ∧
    exprErrors allow am (.call (.name x) args kws)
      = exprListErrors allow am args ++ kwListErrors allow am kws := by
  constructor
  · rfl
  · simp [exprErrors, callNodeErrors, funcDenied, ctorErrors, funcChain, exprErrors]

/-- C2 counterexample: validating `from pychrono import core` yields zero
violations, not the one ImportViolation the claim requires — the validator
defines no import checks at all. -/
theorem c2_counterexample :
    validateCode selEnv ambPolicy selSrc = [] ∧
    (validateCode selEnv ambPolicy selSrc).length ≠ 1 := by
  constructor
  · rfl
  · decide

/-- C2 amended: import statements of either form never produce violations;
a selective import `from pychrono import core` is accepted and merely binds
the alias `core` to `pychrono.core`. -/
theorem c2_amended_imports_never_violate (allow : Allowlist) (am : AliasMap)
    (mo : Option String) (ns ns2 : List (String × Option String)) :
    stmtErrors allow am (.impFrom mo ns) = [] ∧
    stmtErrors allow am (.imp ns2) = [] ∧
    lookupAssoc (collectAliases selModule.body) "core" = some "pychrono.core" := by
  exact ⟨rfl, rfl, rfl⟩

/-- C3 counterexample: the three-line scenario source produces one
violation, not the zero the claim requires. -/
theorem c3_counterexample :
    validateCode fullPathEnv fullPathPolicy fullPathSrc ≠ [] ∧
    (validateCode fullPathEnv fullPathPolicy fullPathSrc).length = 1 := by
  constructor
  · decide
  · rfl

/-- C3 amended: because `import pychrono` binds the alias `pychrono` to the
default submodule `pychrono.core`, the full-path call `pychrono.core.Widget(1,2)`
resolves to `pychrono.core.core.Widget` and is rejected as a constructor not
in the allowlist (exactly one violation); the method call `x.Foo()` on the
bound variable stays unchecked, and the bare-alias form `pychrono.Widget(1,2)`
is the accepted spelling. -/
theorem c3_amended_full_path_rejected :
    validateCode fullPathEnv fullPathPolicy fullPathSrc
      = [ctorMsg "pychrono.core.core.Widget"] ∧
    callNodeErrors fullPathPolicy (collectAliases fullPathModule.body)
      (.attribute (.name "x") "Foo") [] [] = [] ∧
    callNodeErrors fullPathPolicy (collectAliases fullPathModule.body)
      (.attribute (.name "pychrono") "Widget") [.const "1", .const "2"] [] = [] := by
  exact ⟨rfl, rfl, rfl⟩

/-- C5: whenever the bare attribute name of a call's callee is a key of the
denied-attribute table, the violation carrying that entry's hint is emitted
first for that call, for every receiver expression, alias map and policy —
independent of any variable binding or class resolution. -/
theorem c5_denied_attribute_always_flagged (allow : Allowlist) (am : AliasMap)
    (v : PyExpr) (a hint : String) (args : List PyExpr)
    (kws : List (Option String × PyExpr))
    (h : denyAttrHint a = some hint) :
    ∃ rest, callNodeErrors allow am (.attribute v a) args kws
      = deniedMsg a hint :: rest := by
  refine ⟨ctorErrors allow am (.attribute v a) args kws, ?_⟩
  simp [callNodeErrors, funcDenied, deniedErrors, h]

/-- C5 witness: `obj.AddTypicalCamera(...)` is flagged with the table's
hint even though `obj` has no binding and nothing resolves. -/
theorem c5_witness :
    ∃ rest, callNodeErrors ambPolicy [] (.attribute (.name "obj") "AddTypicalCamera") [] []
      = deniedMsg "AddTypicalCamera"
          "Removed in 9.x. Use vis.AddCamera(pos, target) on ChVisualSystemIrrlicht." :: rest :=
  c5_denied_attribute_always_flagged ambPolicy [] (.name "obj") "AddTypicalCamera"
    "Removed in 9.x. Use vis.AddCamera(pos, target) on ChVisualSystemIrrlicht." [] [] rfl

/-- C7: a call whose callee's attribute chain is rooted in anything but a
plain identifier (for example a call result) is treated as unresolved: the
chain flattens to the empty list and the call contributes at most the
name-based denied-attribute message, never a constructor or arity
violation.  All traversal functions of the embedding are total, so
validation always returns a violation list. -/
theorem c7_unresolvable_shapes_are_nonmatching (allow : Allowlist)
    (am : AliasMap) (f : PyExpr) (args : List PyExpr)
    (kws : List (Option String × PyExpr))
    (h : isNameRoot (chainRoot f) = false) :
    attrChain f = [] ∧ callNodeErrors allow am f args kws = funcDenied f := by
  have hc := attrChain_eq_nil f h
  refine ⟨hc, ?_⟩
  have hctor : ctorErrors allow am f args kws = [] := by
    cases f
    next x => simp [chainRoot, isNameRoot] at h
    next s => rfl
    next v a => simp [ctorErrors, funcChain, hc]
    next g as ks => rfl
  simp [callNodeErrors, hctor]

/-- C7 witness: a method call on a call result, `factory().Make()`. -/
theorem c7_witness :
    attrChain (.attribute (.call (.name "factory") [] []) "Make") = [] ∧
    callNodeErrors ambPolicy []
      (.attribute (.call (.name "factory") [] []) "Make") [] []
      = funcDenied (.attribute (.call (.name "factory") [] []) "Make") :=
  c7_unresolvable_shapes_are_nonmatching ambPolicy []
    (.attribute (.call (.name "factory") [] []) "Make") [] [] rfl

/-- C1 counterexample: with `Ambiguous` permitted by both `pychrono.core`
and `pychrono.vehicle`, the bare top-level reference `pychrono.Ambiguous(1)`
validates with zero violations — not the single unresolvable/ambiguity
violation the claim requires; the engine silently resolves the bare alias
to `pychrono.core` and accepts the call. -/
theorem c1_counterexample :
    validateCode ambEnv ambPolicy ambSrc = [] ∧
    (validateCode ambEnv ambPolicy ambSrc).length ≠ 1 := by
  constructor
  · rfl
  · decide

/-- C1 amended: the engine performs no ambiguity detection.  A bare
top-level class reference always resolves through the alias map entry for
`pychrono`, which points at the default submodule `pychrono.core`; whenever
the referenced class is in `pychrono.core`'s permitted set (with no overload
windows and a name outside the denied-attribute table), the call yields no
violation at all — even if other modules also list the class — and no
unresolvable/ambiguity outcome exists. -/
theorem c1_amended_bare_toplevel_resolves_to_core (allow : Allowlist)
    (am : AliasMap) (cls : String) (cs : List String)
    (args : List PyExpr) (kws : List (Option String × PyExpr))
    (ham : lookupAssoc am "pychrono" = some "pychrono.core")
    (hne : cls ≠ "")
    (hnd : ∀ ch ∈ cls.data, ch ≠ '.')
    (hmod : lookupAssoc allow.modules "pychrono.core" = some cs)
    (hmem : cs.contains cls = true)
    (hov : lookupAssoc allow.overloads ("pychrono.core." ++ cls) = none)
    (hdeny : denyAttrHint cls = none) :
    callNodeErrors allow am (.attribute (.name "pychrono") cls) args kws = [] := by
  have hfc : funcChain (.attribute (.name "pychrono") cls) = ["pychrono", cls] := by
    simp [funcChain, attrChain]
  have hfq : fqnameFromChain ["pychrono", cls] am = some ("pychrono.core." ++ cls) := by
    simp [fqnameFromChain, ham, dotJoin]
  have hnee : ("pychrono.core." ++ cls) ≠ "" := by
    simpa using dotName_ne_empty "pychrono.core" cls
  have hcd : countDots ("pychrono.core." ++ cls) = 2 := by
    have h1 := countDots_append "pychrono.core" cls hnd
    have h2 : countDots "pychrono.core" = 1 := rfl
    simpa [h2] using h1
  have hrp : rpartitionDot ("pychrono.core." ++ cls) = ("pychrono.core", cls) := by
    simpa using rpartitionDot_append "pychrono.core" cls hnd
  have hmem2 : cls ∈ cs := by simpa using hmem
  have hallow : isAllowedClass allow ("pychrono.core." ++ cls) = true := by
    simp [isAllowedClass, hrp, hmod, hmem2, hne]
  have hwin : ctorWindows allow ("pychrono.core." ++ cls) = [] := by
    simp [ctorWindows, hov]
  have hct : ctorErrors allow am (.attribute (.name "pychrono") cls) args kws = [] := by
    simp [ctorErrors, hfc, hfq, hnee, hcd, hallow, arityErrors, hwin]
  simp [callNodeErrors, funcDenied, deniedErrors, hdeny, hct]

/-- C1 amended witness: the exact ambiguity scenario, as a concrete
instance of the amended statement. -/
theorem c1_amended_witness :
    callNodeErrors ambPolicy (collectAliases ambModule.body)
      (.attribute (.name "pychrono") "Ambiguous") [.const "1"] [] = [] :=
  c1_amended_bare_toplevel_resolves_to_core ambPolicy
    (collectAliases ambModule.body) "Ambiguous" ["Ambiguous"] [.const "1"] []
    rfl (by decide) (by decide) rfl rfl rfl rfl

/-- C4: for a constructor call that resolves to an allowlisted class with
declared overloads, (a) the computed windows are exactly the spec's
`(max(paramCount - defaultCount, 0), paramCount)` per declared overload,
(b) the call is accepted (no error beyond the name-based denylist) exactly
when the supplied argument count — positionals plus named keywords — falls
inside at least one window, and (c) otherwise an arity violation naming the
class, the supplied count and the full window list is emitted. -/
theorem c4_arity_windows (allow : Allowlist) (am : AliasMap) (v : PyExpr)
    (a fq : String) (wins : List (Int × Int))
    (args : List PyExpr) (kws : List (Option String × PyExpr))
    (hchain : fqnameFromChain (funcChain (.attribute v a)) am = some fq)
    (hfq1 : fq ≠ "") (hfq2 : countDots fq ≥ 2)
    (hallow : isAllowedClass allow fq = true)
    (hwins : ctorWindows allow fq = wins)
    (hne : wins ≠ []) :
    (∀ ols, lookupAssoc allow.overloads fq = some ols →
        wins = ols.map specArityWindow) ∧
    ((∃ w ∈ wins, w.1 ≤ (suppliedArgc args kws : Int) ∧
        (suppliedArgc args kws : Int) ≤ w.2) →
      callNodeErrors allow am (.attribute v a) args kws = deniedErrors a) ∧
    ((∀ w ∈ wins, ¬ (w.1 ≤ (suppliedArgc args kws : Int) ∧
        (suppliedArgc args kws : Int) ≤ w.2)) →
      callNodeErrors allow am (.attribute v a) args kws
        = deniedErrors a ++ [arityMsg fq (suppliedArgc args kws) wins]) := by
  have hct : ctorErrors allow am (.attribute v a) args kws
      = arityErrors allow fq args kws := by
    cases hc : funcChain (.attribute v a) with
    | nil => rw [hc] at hchain; simp [fqnameFromChain] at hchain
    | cons c cs =>
      rw [hc] at hchain
      simp [ctorErrors, hc, hchain, hfq1, hfq2, hallow]
  refine ⟨?_, ?_, ?_⟩
  · intro ols hols
    rw [← hwins]
    unfold ctorWindows
    rw [hols]
    simp only [Option.getD_some, specArityWindow]
    refine List.map_congr_left ?_
    intro o _
    rcases lt_or_le ((o.args.length : Int) - o.defaults) 0 with h | h
    · rw [if_pos h, (max_eq_right h.le).symm]
      simp [specArityWindow]
    · rw [if_neg (not_lt.mpr h), (max_eq_left h).symm]
      simp [specArityWindow]
  · rintro ⟨w, hw, h1, h2⟩
    have hany : wins.any (fun w => decide (w.1 ≤ (suppliedArgc args kws : Int) ∧
        (suppliedArgc args kws : Int) ≤ w.2)) = true := by
      rw [List.any_eq_true]
      exact ⟨w, hw, by simp [h1, h2]⟩
    simp [callNodeErrors, funcDenied, hct, arityErrors, hwins, hne, hany]
    exact ⟨w.1, w.2, by simpa using hw, h1, h2⟩
  · intro hall
    have hany : wins.any (fun w => decide (w.1 ≤ (suppliedArgc args kws : Int) ∧
        (suppliedArgc args kws : Int) ≤ w.2)) = false := by
      rw [List.any_eq_false]
      intro w hw
      simpa using hall w hw
    simp [callNodeErrors, funcDenied, hct, arityErrors, hwins, hne, hany]
    intro x y hxy hle
    by_contra hlt
    exact hall (x, y) hxy ⟨hle, by omega⟩

/-- C4 witness: one overload with parameters `a, b, c` and one default —
window `(2, 3)` — accepts the 2- and 3-argument calls and rejects the 1-
and 4-argument calls with an arity violation listing `(2, 3)`. -/
theorem c4_witness :
    callNodeErrors arityPolicy arityAm (.attribute (.name "chrono") "Widget")
      [.const "1", .const "2"] [] = [] ∧
    callNodeErrors arityPolicy arityAm (.attribute (.name "chrono") "Widget")
      [.const "1", .const "2", .const "3"] [] = [] ∧
    callNodeErrors arityPolicy arityAm (.attribute (.name "chrono") "Widget")
      [.const "1"] [] = [arityMsg "pychrono.core.Widget" 1 [(2, 3)]] ∧
    callNodeErrors arityPolicy arityAm (.attribute (.name "chrono") "Widget")
      [.const "1", .const "2", .const "3", .const "4"] []
      = [arityMsg "pychrono.core.Widget" 4 [(2, 3)]] := by
  refine ⟨?_, ?_, ?_, ?_⟩
  · have h := (c4_arity_windows arityPolicy arityAm (.name "chrono") "Widget"
      "pychrono.core.Widget" [(2, 3)] [.const "1", .const "2"] []
      (by decide) (by decide) (by decide) (by decide) (by decide) (by decide)).2.1
    simpa [deniedErrors, denyAttrHint] using h ⟨(2, 3), by decide, by decide, by decide⟩
  · have h := (c4_arity_windows arityPolicy arityAm (.name "chrono") "Widget"
      "pychrono.core.Widget" [(2, 3)] [.const "1", .const "2", .const "3"] []
      (by decide) (by decide) (by decide) (by decide) (by decide) (by decide)).2.1
    simpa [deniedErrors, denyAttrHint] using h ⟨(2, 3), by decide, by decide, by decide⟩
  · have h := (c4_arity_windows arityPolicy arityAm (.name "chrono") "Widget"
      "pychrono.core.Widget" [(2, 3)] [.const "1"] []
      (by decide) (by decide) (by decide) (by decide) (by decide) (by decide)).2.2
    simpa [deniedErrors, denyAttrHint] using h (by decide)
  · have h := (c4_arity_windows arityPolicy arityAm (.name "chrono") "Widget"
      "pychrono.core.Widget" [(2, 3)] [.const "1", .const "2", .const "3", .const "4"] []
      (by decide) (by decide) (by decide) (by decide) (by decide) (by decide)).2.2
    simpa [deniedErrors, denyAttrHint] using h (by decide)

/-- C10: whenever the rewrite pass records no applied renames, the pipeline
returns the input source text itself, character for character — `rewritten`
is initialized to `source` and reassigned only under `if rewriter.applied:`
— so the output can differ from the input only when the applied-renames
list is non-empty. -/
theorem c10_unchanged_without_renames (env : SerEnv) (allow : Allowlist)
    (cr ar : RenMap) (src : String)
    (h : (rewriteAndValidate env allow cr ar src).2.2 = []) :
    (rewriteAndValidate env allow cr ar src).1 = src := by
  unfold rewriteAndValidate at h ⊢
  cases hp : env.parse src with
  | error e => rfl
  | ok t =>
    rw [hp] at h
    dsimp only at h ⊢
    cases hp2 : env.parse (rewrittenOf env cr ar src t) with
    | error e =>
      rw [hp2] at h
      dsimp only at h ⊢
      simp [rewrittenOf, h]
    | ok t2 =>
      rw [hp2] at h
      dsimp only at h ⊢
      simp [rewrittenOf, h]

/-- C10 witness: a source with no applicable renames comes back verbatim. -/
theorem c10_witness :
    (rewriteAndValidate idleEnv ambPolicy [] [] "pass").2.2 = [] ∧
    (rewriteAndValidate idleEnv ambPolicy [] [] "pass").1 = "pass" :=
  ⟨rfl, c10_unchanged_without_renames idleEnv ambPolicy [] [] "pass" rfl⟩

/-- C6: a pre-rewrite parse failure short-circuits — no rewriting or
walking happens, the result is the single `SyntaxError` violation with the
input returned unchanged and no renames; a post-rewrite parse failure is
reported distinctly as occurring after rewrite, alongside the renames that
were already applied. -/
theorem c6_parse_failures (env : SerEnv) (allow : Allowlist)
    (cr ar : RenMap) (src : String) :
    (∀ e, env.parse src = .error e →
      rewriteAndValidate env allow cr ar src = (src, [syntaxErrorMsg e], [])) ∧
    (∀ t e, env.parse src = .ok t →
      env.parse (rewrittenOf env cr ar src t) = .error e →
      rewriteAndValidate env allow cr ar src
        = (rewrittenOf env cr ar src t, [syntaxErrorAfterMsg e],
           (rewriteModule cr ar t).2)) := by
  constructor
  · intro e he
    unfold rewriteAndValidate
    rw [he]
  · intro t e ht he
    unfold rewriteAndValidate
    rw [ht]
    dsimp only
    rw [he]

/-- C6 witness: a source that does not parse is returned unchanged with one
`SyntaxError` violation; a source whose rewrite no longer parses is
returned with one after-rewrite `SyntaxError` violation and the applied
rename. -/
theorem c6_witness :
    rewriteAndValidate failEnv ambPolicy [] [] "x" =
      ("x", [syntaxErrorMsg ⟨"invalid syntax", 3⟩], []) ∧
    rewriteAndValidate rwErrEnv ambPolicy oldNewRen [] "p" =
      ("q", [syntaxErrorAfterMsg ⟨"bad token", 7⟩], ["class: Old -> New"]) := by
  constructor
  · exact (c6_parse_failures failEnv ambPolicy [] [] "x").1 ⟨"invalid syntax", 3⟩ rfl
  · exact (c6_parse_failures rwErrEnv ambPolicy oldNewRen [] "p").2 oldModule
      ⟨"bad token", 7⟩ rfl rfl

/-- When no rename target is also a rename source, the rewriter's output is
a fixed point: a second pass changes nothing and records nothing.  Strong
induction on node size, simultaneously for expressions, expression lists
and keyword lists. -/
theorem rewriteFixAll (cr ar : RenMap) (hcr : NoChain cr) (har : NoChain ar) :
    ∀ n : Nat,
      (∀ e : PyExpr, sizeOf e ≤ n →
        rewriteExpr cr ar (rewriteExpr cr ar e).1 = ((rewriteExpr cr ar e).1, [])) ∧
      (∀ l : List PyExpr, sizeOf l ≤ n →
        rewriteExprList cr ar (rewriteExprList cr ar l).1
          = ((rewriteExprList cr ar l).1, [])) ∧
      (∀ kl : List (Option String × PyExpr), sizeOf kl ≤ n →
        rewriteKwList cr ar (rewriteKwList cr ar kl).1
          = ((rewriteKwList cr ar kl).1, [])) := by
  intro n
  induction n with
  | zero =>
    refine ⟨?_, ?_, ?_⟩
    · intro e he; cases e <;> simp at he
    · intro l hl; cases l <;> simp at hl
    · intro kl hk; cases kl <;> simp at hk
  | succ n ih =>
    obtain ⟨ihE, ihL, ihK⟩ := ih
    refine ⟨?_, ?_, ?_⟩
    · intro e he
      cases e
      next s =>
        cases hl : lookupAssoc cr s with
        | none => simp [rewriteExpr, hl]
        | some new =>
          by_cases hne : new = s
          · subst hne; simp [rewriteExpr, hl]
          · simp [rewriteExpr, hl, hne, hcr s new hl]
      next s => rfl
      next v a =>
        have hsv : sizeOf v ≤ n := by simp at he; omega
        have hv := ihE v hsv
        cases hl : lookupAssoc ar a with
        | none => simp [rewriteExpr, hl, hv]
        | some new =>
          by_cases hne : new = a
          · subst hne; simp [rewriteExpr, hl, hv]
          · simp [rewriteExpr, hl, hne, hv, har a new hl]
      next f as ks =>
        have hb : sizeOf f ≤ n ∧ sizeOf as ≤ n ∧ sizeOf ks ≤ n := by
          simp at he; omega
        have hf := ihE f hb.1
        have ha := ihL as hb.2.1
        have hk := ihK ks hb.2.2
        simp [rewriteExpr, hf, ha, hk]
    · intro l hl
      cases l with
      | nil => rfl
      | cons e rest =>
        have h1 : sizeOf e ≤ n ∧ sizeOf rest ≤ n := by simp at hl; omega
        have he := ihE e h1.1
        have hr := ihL rest h1.2
        simp [rewriteExprList, he, hr]
    · intro kl hk
      cases kl with
      | nil => rfl
      | cons k rest =>
        obtain ⟨ka, ke⟩ := k
        have h1 : sizeOf ke ≤ n ∧ sizeOf rest ≤ n := by simp at hk; omega
        have he := ihE ke h1.1
        have hr := ihK rest h1.2
        simp [rewriteKwList, he, hr]

/-- Fixed point of the rewriter at statement level. -/
theorem rewriteStmtFix (cr ar : RenMap) (hcr : NoChain cr) (har : NoChain ar)
    (s : PyStmt) :
    rewriteStmt cr ar (rewriteStmt cr ar s).1 = ((rewriteStmt cr ar s).1, []) := by
  have hE := fun e : PyExpr => (rewriteFixAll cr ar hcr har (sizeOf e)).1 e le_rfl
  have hL := fun l : List PyExpr => (rewriteFixAll cr ar hcr har (sizeOf l)).2.1 l le_rfl
  cases s with
  | imp ns => rfl
  | impFrom mo ns => rfl
  | assign ts v => simp [rewriteStmt, hL ts, hE v]
  | exprStmt e => simp [rewriteStmt, hE e]

/-- Fixed point of the rewriter at statement-list level. -/
theorem rewriteStmtsFix (cr ar : RenMap) (hcr : NoChain cr) (har : NoChain ar) :
    ∀ l : List PyStmt,
      rewriteStmts cr ar (rewriteStmts cr ar l).1 = ((rewriteStmts cr ar l).1, [])
  | [] => rfl
  | s :: rest => by
    have hs := rewriteStmtFix cr ar hcr har s
    have hr := rewriteStmtsFix cr ar hcr har rest
    simp [rewriteStmts, hs, hr]

/-- Fixed point of the rewriter at module level. -/
theorem rewriteModuleFix (cr ar : RenMap) (hcr : NoChain cr) (har : NoChain ar)
    (m : PyModule) :
    rewriteModule cr ar (rewriteModule cr ar m).1 = ((rewriteModule cr ar m).1, []) := by
  cases m with
  | mk body => simp [rewriteModule, rewriteStmtsFix cr ar hcr har body]

/-- C8: with rename maps in which no target is also a source, applying
`rewrite_and_validate` twice yields the same rewritten text as applying it
once — renames are not re-triggered by their own output.  The serializer is
assumed to succeed and to round-trip through the parser on the one rewritten
tree produced from this source (true of `ast.unparse`/`astor` up to
formatting). -/
theorem c8_rewrite_idempotent (env : SerEnv) (allow : Allowlist)
    (cr ar : RenMap) (src : String)
    (hcr : NoChain cr) (har : NoChain ar)
    (hrt : ∀ t u, env.parse src = .ok t →
        env.unparse (rewriteModule cr ar t).1 = some u →
        env.parse u = .ok (rewriteModule cr ar t).1)
    (hup : ∀ t, env.parse src = .ok t → (rewriteModule cr ar t).2 ≠ [] →
        env.unparse (rewriteModule cr ar t).1 ≠ none) :
    (rewriteAndValidate env allow cr ar
        (rewriteAndValidate env allow cr ar src).1).1
      = (rewriteAndValidate env allow cr ar src).1 := by
  cases hp : env.parse src with
  | error e =>
    have h1 : (rewriteAndValidate env allow cr ar src).1 = src := by
      unfold rewriteAndValidate; rw [hp]
    rw [h1]; exact h1
  | ok t =>
    by_cases hap : (rewriteModule cr ar t).2 = []
    · have hro : rewrittenOf env cr ar src t = src := by simp [rewrittenOf, hap]
      have h1 : (rewriteAndValidate env allow cr ar src).1 = src := by
        unfold rewriteAndValidate
        rw [hp]
        dsimp only
        rw [hro, hp]
      rw [h1]; exact h1
    · obtain ⟨u, hu⟩ : ∃ u, env.unparse (rewriteModule cr ar t).1 = some u := by
        cases hx : env.unparse (rewriteModule cr ar t).1 with
        | none => exact absurd hx (hup t hp hap)
        | some u => exact ⟨u, rfl⟩
      have hro : rewrittenOf env cr ar src t = u := by simp [rewrittenOf, hap, hu]
      have h1 : (rewriteAndValidate env allow cr ar src).1 = u := by
        unfold rewriteAndValidate
        rw [hp]
        dsimp only
        rw [hro]
        cases hcase : env.parse u <;> rfl
      have hpu : env.parse u = .ok (rewriteModule cr ar t).1 := hrt t u hp hu
      have hfix := rewriteModuleFix cr ar hcr har t
      have hro2 : rewrittenOf env cr ar u (rewriteModule cr ar t).1 = u := by
        simp [rewrittenOf, hfix]
      have h2 : (rewriteAndValidate env allow cr ar u).1 = u := by
        unfold rewriteAndValidate
        rw [hpu]
        dsimp only
        rw [hro2, hpu]
      rw [h1]; exact h2

/-- C8 witness: `Old -> New` applied to the one-identifier program: the
first pass rewrites and serializes, the second pass changes nothing. -/
theorem c8_witness :
    (rewriteAndValidate idemEnv ambPolicy oldNewRen []
        (rewriteAndValidate idemEnv ambPolicy oldNewRen [] "s0").1).1
      = (rewriteAndValidate idemEnv ambPolicy oldNewRen [] "s0").1 := by
  refine c8_rewrite_idempotent idemEnv ambPolicy oldNewRen [] "s0" ?_ ?_ ?_ ?_
  · intro k v h
    by_cases hk : k = "Old"
    · subst hk
      have hx : some "New" = some v := h
      injection hx with hv
      subst hv
      rfl
    · simp [lookupAssoc, hk] at h
  · intro k v h
    simp [lookupAssoc] at h
  · intro t u h1 h2
    have h1x : (Except.ok oldModule : Except ParseErr PyModule) = Except.ok t := h1
    injection h1x with ht
    subst ht
    have h2x : some "vNew" = some u := h2
    injection h2x with hu
    subst hu
    rfl
  · intro t h1 hne
    have h1x : (Except.ok oldModule : Except ParseErr PyModule) = Except.ok t := h1
    injection h1x with ht
    subst ht
    decide
